import Mathlib

/-!
Verification of the encrypted local data store of the Triangle Telugu Badi
attendance application.

The definitions below are shallow embeddings of the TypeScript source:

* the data model (`Student`, `LogEntry`, `AppDB`) from the type declarations
  at the top of the main application file;
* `arrayBufferToBase64` / `base64ToArrayBuffer`, the base64 transport codec;
* `encryptJSON` / `decryptJSON`, the passphrase-based authenticated
  encryption of the JSON document (the Web Crypto primitives PBKDF2 and
  AES-GCM are external platform calls and are modelled as parameters of a
  `Platform` structure, with their guarantees stated as explicit hypotheses);
* `loadDB` / `saveDB`, the two-tier (IndexedDB / localStorage) storage layer,
  modelled as explicit state passing over a `Store` with failure-injection
  flags for the asynchronous backend calls;
* `generateStudentId` and the database mutation handlers;
* `fetchEncryptedBlob` / `uploadEncryptedBlob` from the cloud sync module.

Machine randomness (`crypto.getRandomValues`) is modelled by passing the
drawn salt and IV as explicit inputs.
-/

namespace TeluguBadi

/-- Bytes are natural numbers; bounds (`< 256`) are tracked by hypotheses. -/
abbrev Bytes := List Nat

/-- Photo set attached to a student record (type `PhotoSet` in the source). -/
structure PhotoSet where
  student : Option String := none
  father : Option String := none
  mother : Option String := none
  guardian1 : Option String := none
  guardian2 : Option String := none
deriving DecidableEq, Repr

/-- Student record (type `Student` in the source). -/
structure Student where
  id : String
  name : String
  classSection : String
  dateOfBirth : Option String := none
  fatherName : Option String := none
  motherName : Option String := none
  guardian1Name : Option String := none
  guardian2Name : Option String := none
  contact : Option String := none
  email : Option String := none
  address : Option String := none
  photos : Option PhotoSet := none
deriving DecidableEq, Repr

/-- Check-in / check-out log entry, with the exact fields the handlers
`handleCheckIn` and `handleCheckOut` construct. -/
structure LogEntry where
  id : String
  studentId : String
  studentName : String
  classSection : String
  type : String
  timestamp : String
  collectedBy : Option String := none
deriving DecidableEq, Repr

/-- The application database (type `AppDB = { students, logs }`). -/
structure AppDB where
  students : List Student
  logs : List LogEntry
deriving DecidableEq, Repr

/-! ## Base64 (`arrayBufferToBase64` / `base64ToArrayBuffer`)

The source builds a binary string from the bytes and calls `btoa` / `atob`.
We embed the resulting standard base64 encoding with `'='` padding directly
on byte lists. -/

/-- The base64 alphabet in index order. -/
def b64Alphabet : List Char :=
  "ABCDEFGHIJKLMNOPQRSTUVWXYZabcdefghijklmnopqrstuvwxyz0123456789+/".data

/-- Character for a 6-bit group. -/
def b64Char (n : Nat) : Char := b64Alphabet.getD n 'A'

/-- `btoa` on a byte list: 3-byte groups become 4 characters, with `'='`
padding for a 1- or 2-byte tail.  This is the value computed by
`arrayBufferToBase64` in the source. -/
def arrayBufferToBase64 : Bytes → List Char
  | [] => []
  | [a] => [b64Char (a / 4), b64Char (a % 4 * 16), '=', '=']
  | [a, b] => [b64Char (a / 4), b64Char (a % 4 * 16 + b / 16), b64Char (b % 16 * 4), '=']
  | a :: b :: c :: rest =>
      b64Char (a / 4) :: b64Char (a % 4 * 16 + b / 16) ::
      b64Char (b % 16 * 4 + c / 64) :: b64Char (c % 64) ::
      arrayBufferToBase64 rest

/-- Value of a base64 character (`none` for a character outside the
alphabet, where `atob` would throw). -/
def b64CharVal (c : Char) : Option Nat :=
  if 65 ≤ c.toNat ∧ c.toNat ≤ 90 then some (c.toNat - 65)
  else if 97 ≤ c.toNat ∧ c.toNat ≤ 122 then some (c.toNat - 97 + 26)
  else if 48 ≤ c.toNat ∧ c.toNat ≤ 57 then some (c.toNat - 48 + 52)
  else if c = '+' then some 62
  else if c = '/' then some 63
  else none

/-- `atob` followed by the char-code loop of `base64ToArrayBuffer`:
decodes 4-character groups back into bytes, honouring `'='` padding.
`none` models the exception `atob` raises on malformed input. -/
def base64ToArrayBuffer : List Char → Option Bytes
  | [] => some []
  | w :: x :: y :: z :: rest =>
      match b64CharVal w, b64CharVal x with
      | some wv, some xv =>
          if y = '=' then
            if z = '=' ∧ rest = [] then some [wv * 4 + xv / 16] else none
          else
            match b64CharVal y with
            | some yv =>
                if z = '=' then
                  if rest = [] then some [wv * 4 + xv / 16, xv % 16 * 16 + yv / 4]
                  else none
                else
                  match b64CharVal z, base64ToArrayBuffer rest with
                  | some zv, some bs =>
                      some ((wv * 4 + xv / 16) :: (xv % 16 * 16 + yv / 4) ::
                            (yv % 4 * 64 + zv) :: bs)
                  | _, _ => none
            | none => none
      | _, _ => none
  | _ => none

/-- Custom induction principle following the 3-byte chunking of the codec. -/
theorem bytesChunk3Ind (P : Bytes → Prop) (h0 : P []) (h1 : ∀ a, P [a])
    (h2 : ∀ a b, P [a, b]) (h3 : ∀ a b c r, P r → P (a :: b :: c :: r)) :
    ∀ l, P l
  | [] => h0
  | [a] => h1 a
  | [a, b] => h2 a b
  | a :: b :: c :: r => h3 a b c r (bytesChunk3Ind P h0 h1 h2 h3 r)

theorem b64CharVal_b64Char : ∀ v < 64, b64CharVal (b64Char v) = some v := by
  decide

theorem b64Char_ne_quote : ∀ v < 64, b64Char v ≠ '\"' ∧ b64Char v ≠ '\\' := by
  decide

theorem b64Char_ne_pad : ∀ v < 64, b64Char v ≠ '=' := by
  decide

/-- Decoding inverts encoding on genuine byte lists. -/
theorem base64_roundtrip (l : Bytes) (hb : ∀ b ∈ l, b < 256) :
    base64ToArrayBuffer (arrayBufferToBase64 l) = some l := by
  induction l using bytesChunk3Ind with
  | h0 => rfl
  | h1 a =>
      have ha : a < 256 := hb a (by simp)
      have h1 : a / 4 < 64 := by omega
      have h2 : a % 4 * 16 < 64 := by omega
      have e1 : a / 4 * 4 + a % 4 * 16 / 16 = a := by omega
      simp [arrayBufferToBase64, base64ToArrayBuffer,
        b64CharVal_b64Char _ h1, b64CharVal_b64Char _ h2, e1]
      all_goals omega
  | h2 a b =>
      have ha : a < 256 := hb a (by simp)
      have hbb : b < 256 := hb b (by simp)
      have h1 : a / 4 < 64 := by omega
      have h2 : a % 4 * 16 + b / 16 < 64 := by omega
      have h3 : b % 16 * 4 < 64 := by omega
      have e1 : a / 4 * 4 + (a % 4 * 16 + b / 16) / 16 = a := by omega
      have e2 : (a % 4 * 16 + b / 16) % 16 * 16 + b % 16 * 4 / 4 = b := by omega
      simp [arrayBufferToBase64, base64ToArrayBuffer,
        b64CharVal_b64Char _ h1, b64CharVal_b64Char _ h2, b64CharVal_b64Char _ h3,
        b64Char_ne_pad _ h3, e1, e2]
      all_goals omega
  | h3 a b c r ih =>
      have ha : a < 256 := hb a (by simp)
      have hbb : b < 256 := hb b (by simp)
      have hc : c < 256 := hb c (by simp)
      have hr : ∀ x ∈ r, x < 256 := fun x hx => hb x (by simp [hx])
      have h1 : a / 4 < 64 := by omega
      have h2 : a % 4 * 16 + b / 16 < 64 := by omega
      have h3 : b % 16 * 4 + c / 64 < 64 := by omega
      have h4 : c % 64 < 64 := by omega
      have e1 : a / 4 * 4 + (a % 4 * 16 + b / 16) / 16 = a := by omega
      have e2 : (a % 4 * 16 + b / 16) % 16 * 16 + (b % 16 * 4 + c / 64) / 4 = b := by
        omega
      have e3 : (b % 16 * 4 + c / 64) % 4 * 64 + c % 64 = c := by omega
      simp [arrayBufferToBase64, base64ToArrayBuffer,
        b64CharVal_b64Char _ h1, b64CharVal_b64Char _ h2,
        b64CharVal_b64Char _ h3, b64CharVal_b64Char _ h4,
        b64Char_ne_pad _ h3, b64Char_ne_pad _ h4, ih hr, e1, e2, e3]

/-- The encoder is injective on genuine byte lists (consequence of the
roundtrip). -/
theorem arrayBufferToBase64_inj {l1 l2 : Bytes}
    (h1 : ∀ b ∈ l1, b < 256) (h2 : ∀ b ∈ l2, b < 256)
    (he : arrayBufferToBase64 l1 = arrayBufferToBase64 l2) : l1 = l2 := by
  have r1 := base64_roundtrip l1 h1
  have r2 := base64_roundtrip l2 h2
  rw [he, r2] at r1
  exact (Option.some_inj.mp r1).symm

/-! ## The encrypted blob and its JSON text form

`encryptJSON` returns `JSON.stringify({salt, iv, cipher})` and `decryptJSON`
starts with `JSON.parse`.  The record shape is fixed, so we embed the exact
text `JSON.stringify` produces for it (the three fields are base64 text, so
no string escaping arises), together with a parser for that shape standing
for `JSON.parse`; `none` models the `SyntaxError` thrown on malformed
input. -/

/-- The encrypted blob record `{ salt, iv, cipher }`. -/
structure Blob where
  salt : String
  iv : String
  cipher : String
deriving DecidableEq, Repr

def blobLit1 : List Char := "\x7b\"salt\":\"".data

def blobLit2Tail : List Char := ",\"iv\":\"".data

def blobLit2 : List Char := '\"' :: blobLit2Tail

def blobLit3Tail : List Char := ",\"cipher\":\"".data

def blobLit3 : List Char := '\"' :: blobLit3Tail

def blobLit4 : List Char := '\"' :: ['\x7d']

/-- `JSON.stringify({ salt, iv, cipher })` for the given field values. -/
def blobToString (b : Blob) : String :=
  ⟨blobLit1 ++ b.salt.data ++ blobLit2 ++ b.iv.data ++ blobLit3 ++
    b.cipher.data ++ blobLit4⟩

/-- Strip an expected literal from the front of the input. -/
def stripLit : List Char → List Char → Option (List Char)
  | [], l => some l
  | _ :: _, [] => none
  | c :: lit, x :: l => if x = c then stripLit lit l else none

/-- `JSON.parse` restricted to the `{salt, iv, cipher}` object shape the
codec produces. -/
def parseBlobChars (l : List Char) : Option Blob := do
  let r1 ← stripLit blobLit1 l
  let f1 := r1.takeWhile (fun c => c != '\"')
  let r2 := r1.dropWhile (fun c => c != '\"')
  let r3 ← stripLit blobLit2 r2
  let f2 := r3.takeWhile (fun c => c != '\"')
  let r4 := r3.dropWhile (fun c => c != '\"')
  let r5 ← stripLit blobLit3 r4
  let f3 := r5.takeWhile (fun c => c != '\"')
  let r6 := r5.dropWhile (fun c => c != '\"')
  if r6 = blobLit4 then some ⟨⟨f1⟩, ⟨f2⟩, ⟨f3⟩⟩ else none

/-- `JSON.parse` of a blob string. -/
def parseBlob (s : String) : Option Blob := parseBlobChars s.data

theorem stripLit_append (lit r : List Char) : stripLit lit (lit ++ r) = some r := by
  induction lit with
  | nil => rfl
  | cons c cs ih => simp [stripLit, ih]

theorem takeWhile_no_quote (f : List Char) (hf : ∀ c ∈ f, c ≠ '\"')
    (r : List Char) :
    (f ++ '\"' :: r).takeWhile (fun c => c != '\"') = f := by
  induction f with
  | nil => simp
  | cons c cs ih =>
      have hc : c ≠ '\"' := hf c (by simp)
      have ih' := ih fun x hx => hf x (by simp [hx])
      simp [List.takeWhile_cons, hc, ih']

theorem dropWhile_no_quote (f : List Char) (hf : ∀ c ∈ f, c ≠ '\"')
    (r : List Char) :
    (f ++ '\"' :: r).dropWhile (fun c => c != '\"') = '\"' :: r := by
  induction f with
  | nil => simp
  | cons c cs ih =>
      have hc : c ≠ '\"' := hf c (by simp)
      have ih' := ih fun x hx => hf x (by simp [hx])
      simp [List.dropWhile_cons, hc, ih']

theorem stripLit_lit2 (r : List Char) :
    stripLit blobLit2 ('\"' :: (blobLit2Tail ++ r)) = some r :=
  stripLit_append blobLit2 r

theorem stripLit_lit3 (r : List Char) :
    stripLit blobLit3 ('\"' :: (blobLit3Tail ++ r)) = some r :=
  stripLit_append blobLit3 r

/-- Parsing inverts serialization for blobs whose fields contain no quote
character (base64 text never does). -/
theorem parseBlob_blobToString (b : Blob)
    (h1 : ∀ c ∈ b.salt.data, c ≠ '\"')
    (h2 : ∀ c ∈ b.iv.data, c ≠ '\"')
    (h3 : ∀ c ∈ b.cipher.data, c ≠ '\"') :
    parseBlob (blobToString b) = some b := by
  have hshape : (blobToString b).data =
      blobLit1 ++ (b.salt.data ++ ('\"' :: (blobLit2Tail ++
        (b.iv.data ++ ('\"' :: (blobLit3Tail ++
          (b.cipher.data ++ ('\"' :: ['\x7d'])))))))) := by
    simp [blobToString, blobLit2, blobLit3, blobLit4, List.append_assoc]
  rw [parseBlob, hshape, parseBlobChars, stripLit_append]
  simp only [Option.pure_def, Option.bind_eq_bind, Option.some_bind]
  rw [takeWhile_no_quote _ h1, dropWhile_no_quote _ h1, stripLit_lit2]
  simp only [Option.pure_def, Option.bind_eq_bind, Option.some_bind]
  rw [takeWhile_no_quote _ h2, dropWhile_no_quote _ h2, stripLit_lit3]
  simp only [Option.pure_def, Option.bind_eq_bind, Option.some_bind]
  rw [takeWhile_no_quote _ h3, dropWhile_no_quote _ h3]
  simp [blobLit4]

/-- Base64 text never contains a quote (so blob fields need no JSON
escaping). -/
theorem arrayBufferToBase64_no_quote (l : Bytes) (hb : ∀ b ∈ l, b < 256) :
    ∀ c ∈ arrayBufferToBase64 l, c ≠ '\"' := by
  induction l using bytesChunk3Ind with
  | h0 => simp [arrayBufferToBase64]
  | h1 a =>
      have ha : a < 256 := hb a (by simp)
      intro c hc
      simp [arrayBufferToBase64] at hc
      rcases hc with h | h | h <;> subst h
      · exact (b64Char_ne_quote _ (by omega)).1
      · exact (b64Char_ne_quote _ (by omega)).1
      · decide
  | h2 a b =>
      have ha : a < 256 := hb a (by simp)
      have hbb : b < 256 := hb b (by simp)
      intro c hc
      simp [arrayBufferToBase64] at hc
      rcases hc with h | h | h | h <;> subst h
      · exact (b64Char_ne_quote _ (by omega)).1
      · exact (b64Char_ne_quote _ (by omega)).1
      · exact (b64Char_ne_quote _ (by omega)).1
      · decide
  | h3 a b c r ih =>
      have ha : a < 256 := hb a (by simp)
      have hbb : b < 256 := hb b (by simp)
      have hc2 : c < 256 := hb c (by simp)
      have hr : ∀ x ∈ r, x < 256 := fun x hx => hb x (by simp [hx])
      intro ch hch
      simp [arrayBufferToBase64] at hch
      rcases hch with h | h | h | h | h
      · subst h; exact (b64Char_ne_quote _ (by omega)).1
      · subst h; exact (b64Char_ne_quote _ (by omega)).1
      · subst h; exact (b64Char_ne_quote _ (by omega)).1
      · subst h; exact (b64Char_ne_quote _ (by omega)).1
      · exact ih hr ch h

/-! ## The cipher layer (`encryptJSON` / `decryptJSON`)

The Web platform primitives the source calls — `JSON.stringify` /
`JSON.parse` on the application document, `TextEncoder` / `TextDecoder`,
PBKDF2 (`deriveKeyFromPassphrase`) and AES-GCM (`crypto.subtle.encrypt` /
`crypto.subtle.decrypt`) — are external to the repository.  They are
modelled as fields of a `Platform`, and the guarantees the platform
documents for them (GCM roundtrip, tag rejection of mismatched keys and of
tampered ciphertext, byte-valued outputs) enter the theorems as explicit
hypotheses.  A concrete executable instance satisfying all of them is
constructed further below, certifying that the hypotheses are jointly
satisfiable. -/

/-- External platform primitives.  `α` is the document type (`encryptJSON`
is generic in the object it serializes); `κ` is the opaque `CryptoKey`
type. -/
structure Platform (α : Type) (κ : Type) where
  stringifyDoc : α → String
  parseDoc : String → Option α
  utf8Encode : String → Bytes
  utf8Decode : Bytes → String
  deriveKeyFromPassphrase : String → Bytes → κ
  aesGcmEncrypt : κ → Bytes → Bytes → Bytes
  aesGcmDecrypt : κ → Bytes → Bytes → Option Bytes

variable {α κ : Type}

/-- The blob record built by `encryptJSON` before stringification.  `salt`
and `iv` stand for the two `crypto.getRandomValues` draws (16 and 12
bytes). -/
def encBlob (P : Platform α κ) (obj : α) (passphrase : String)
    (salt iv : Bytes) : Blob :=
  { salt := ⟨arrayBufferToBase64 salt⟩
    iv := ⟨arrayBufferToBase64 iv⟩
    cipher := ⟨arrayBufferToBase64 (P.aesGcmEncrypt
      (P.deriveKeyFromPassphrase passphrase salt) iv
      (P.utf8Encode (P.stringifyDoc obj)))⟩ }

/-- `encryptJSON(obj, passphrase)`, with the randomness drawn by
`getRandomValues` passed explicitly as `salt` and `iv`. -/
def encryptJSON (P : Platform α κ) (obj : α) (passphrase : String)
    (salt iv : Bytes) : String :=
  blobToString (encBlob P obj passphrase salt iv)

/-- Failure modes of `decryptJSON`: the `JSON.parse` error on a malformed
outer blob and the `atob` error on a malformed base64 field are thrown
outside the try/catch; `decryptionFailed` is the
`"Decryption failed: wrong passphrase or corrupted data."` error raised by
the catch block around `crypto.subtle.decrypt` and the inner
`JSON.parse`. -/
inductive DecErr
  | jsonError
  | atobError
  | decryptionFailed
deriving DecidableEq, Repr

/-- `decryptJSON(encryptedStr, passphrase)`. -/
def decryptJSON (P : Platform α κ) (encryptedStr passphrase : String) :
    Except DecErr α :=
  match parseBlob encryptedStr with
  | none => .error .jsonError
  | some parsed =>
    match base64ToArrayBuffer parsed.salt.data with
    | none => .error .atobError
    | some salt =>
      match base64ToArrayBuffer parsed.iv.data with
      | none => .error .atobError
      | some iv =>
        match base64ToArrayBuffer parsed.cipher.data with
        | none => .error .atobError
        | some cipher =>
          match P.aesGcmDecrypt
              (P.deriveKeyFromPassphrase passphrase salt) iv cipher with
          | none => .error .decryptionFailed
          | some plain =>
            match P.parseDoc (P.utf8Decode plain) with
            | none => .error .decryptionFailed
            | some obj => .ok obj

/-- Plumbing: decrypting a well-formed blob built from byte-valued
`salt`/`iv`/`ct` reduces to the AES-GCM call on exactly those bytes. -/
theorem decryptJSON_mkBlob (P : Platform α κ) (pass : String)
    (salt iv ct : Bytes)
    (hsalt : ∀ v ∈ salt, v < 256) (hiv : ∀ v ∈ iv, v < 256)
    (hct : ∀ v ∈ ct, v < 256) :
    decryptJSON P (blobToString ⟨⟨arrayBufferToBase64 salt⟩,
        ⟨arrayBufferToBase64 iv⟩, ⟨arrayBufferToBase64 ct⟩⟩) pass =
      match P.aesGcmDecrypt (P.deriveKeyFromPassphrase pass salt) iv ct with
      | none => .error .decryptionFailed
      | some plain =>
        match P.parseDoc (P.utf8Decode plain) with
        | none => .error .decryptionFailed
        | some obj => .ok obj := by
  have hp := parseBlob_blobToString
    ⟨⟨arrayBufferToBase64 salt⟩, ⟨arrayBufferToBase64 iv⟩,
      ⟨arrayBufferToBase64 ct⟩⟩
    (arrayBufferToBase64_no_quote salt hsalt)
    (arrayBufferToBase64_no_quote iv hiv)
    (arrayBufferToBase64_no_quote ct hct)
  rw [decryptJSON, hp]
  simp only [base64_roundtrip salt hsalt, base64_roundtrip iv hiv,
    base64_roundtrip ct hct]

/-! ## A concrete instance of the platform assumptions

To certify that the platform hypotheses used by the theorems below are
jointly satisfiable, we build a small executable model: a toy
authenticated cipher whose ciphertext carries a self-delimiting encoding
of the key, the IV, the plaintext and a one-byte checksum, and whose
decryption re-encrypts and compares.  It is of course not AES-GCM, but it
exhibits the same interface contract (roundtrip, wrong-key rejection,
one-byte-tamper rejection, byte-valued output). -/

/-- Fixed-width (3-byte little-endian) encoding of one code point. -/
def charEnc3 (c : Char) : Bytes :=
  [c.toNat % 256, c.toNat / 256 % 256, c.toNat / 65536]

/-- Byte encoding of a string (a stand-in for UTF-8). -/
def strBytes (s : String) : Bytes := s.data.flatMap charEnc3

/-- Every code point is below `0x110000`. -/
theorem char_toNat_lt (c : Char) : c.toNat < 1114112 := by
  rcases c.valid with h | ⟨h1, h2⟩
  · exact lt_trans h (by norm_num)
  · exact h2

theorem charEnc3_inj {c c' : Char} (h : charEnc3 c = charEnc3 c') : c = c' := by
  simp only [charEnc3, List.cons.injEq, and_true] at h
  obtain ⟨h1, h2, h3⟩ := h
  have ht : c.toNat = c'.toNat := by omega
  have := congrArg Char.ofNat ht
  rwa [Char.ofNat_toNat, Char.ofNat_toNat] at this

theorem flatMap_charEnc3_inj :
    ∀ l l' : List Char, l.flatMap charEnc3 = l'.flatMap charEnc3 → l = l'
  | [], [], _ => rfl
  | [], _ :: _, h => by simp [charEnc3] at h
  | _ :: _, [], h => by simp [charEnc3] at h
  | c :: t, c' :: t', h => by
      simp only [List.flatMap_cons] at h
      have hl : (charEnc3 c).length = (charEnc3 c').length := by simp [charEnc3]
      obtain ⟨h1, h2⟩ := List.append_inj h hl
      rw [charEnc3_inj h1, flatMap_charEnc3_inj t t' h2]

theorem strBytes_inj {s s' : String} (h : strBytes s = strBytes s') : s = s' := by
  cases s with
  | mk d =>
    cases s' with
    | mk d' => exact congrArg String.mk (flatMap_charEnc3_inj d d' h)

theorem charEnc3_bytes (c : Char) : ∀ v ∈ charEnc3 c, v < 256 := by
  have hc := char_toNat_lt c
  intro v hv
  simp [charEnc3] at hv
  rcases hv with h | h | h <;> omega

theorem strBytes_bytes (s : String) : ∀ v ∈ strBytes s, v < 256 := by
  intro v hv
  rw [strBytes] at hv
  obtain ⟨c, -, hc⟩ := List.mem_flatMap.mp hv
  exact charEnc3_bytes c v hc

/-- Toy `CryptoKey`: PBKDF2 is modelled as the pair of its inputs
(injective in the passphrase for a fixed salt). -/
abbrev ToyKey := String × Bytes

/-- Self-delimiting byte encoding of a toy key: a unary length header
followed by the passphrase bytes and the salt. -/
def keyBytes (k : ToyKey) : Bytes :=
  List.replicate (strBytes k.1).length 0 ++ 1 :: (strBytes k.1 ++ k.2)

/-- Toy authenticated encryption: header, IV, plaintext, checksum byte. -/
def toyEncrypt (k : ToyKey) (iv m : Bytes) : Bytes :=
  keyBytes k ++ iv ++ m ++ [(keyBytes k ++ iv ++ m).sum % 256]

/-- Toy authenticated decryption: extract the plaintext candidate,
re-encrypt, and compare. -/
def toyDecrypt (k : ToyKey) (iv c : Bytes) : Option Bytes :=
  let m := (c.drop (keyBytes k ++ iv).length).dropLast
  if c = toyEncrypt k iv m then some m else none

/-- Inverse of `strBytes`. -/
def chars3 : Bytes → List Char
  | a :: b :: c :: r => Char.ofNat (a + 256 * b + 65536 * c) :: chars3 r
  | _ => []

def toyUtf8Decode (l : Bytes) : String := ⟨chars3 l⟩

/-- The toy platform: identity document codec on strings, `strBytes` as
the text codec, and the toy cipher. -/
def toyPlatform : Platform String ToyKey where
  stringifyDoc := id
  parseDoc := some
  utf8Encode := strBytes
  utf8Decode := toyUtf8Decode
  deriveKeyFromPassphrase := fun p s => (p, s)
  aesGcmEncrypt := toyEncrypt
  aesGcmDecrypt := toyDecrypt

theorem chars3_flatMap : ∀ l : List Char, chars3 (l.flatMap charEnc3) = l
  | [] => rfl
  | c :: t => by
      have he : c.toNat % 256 + 256 * (c.toNat / 256 % 256) +
          65536 * (c.toNat / 65536) = c.toNat := by omega
      show chars3 (c.toNat % 256 :: c.toNat / 256 % 256 :: c.toNat / 65536 ::
        t.flatMap charEnc3) = c :: t
      rw [chars3, he, Char.ofNat_toNat, chars3_flatMap t]

theorem toyUtf8_roundtrip (s : String) : toyUtf8Decode (strBytes s) = s := by
  cases s with
  | mk d => simp [toyUtf8Decode, strBytes, chars3_flatMap]

theorem toyEncrypt_unfold (k : ToyKey) (iv m : Bytes) :
    toyEncrypt k iv m =
      (keyBytes k ++ iv ++ m) ++ [(keyBytes k ++ iv ++ m).sum % 256] := by
  simp [toyEncrypt, List.append_assoc]

theorem toyDecrypt_extract (k : ToyKey) (iv m : Bytes) :
    ((toyEncrypt k iv m).drop (keyBytes k ++ iv).length).dropLast = m := by
  have h : toyEncrypt k iv m =
      (keyBytes k ++ iv) ++ (m ++ [(keyBytes k ++ iv ++ m).sum % 256]) := by
    simp [toyEncrypt, List.append_assoc]
  rw [h, List.drop_left]
  simp

/-- Toy GCM roundtrip. -/
theorem toy_gcm (k : ToyKey) (iv m : Bytes) :
    toyDecrypt k iv (toyEncrypt k iv m) = some m := by
  simp only [toyDecrypt]
  rw [toyDecrypt_extract, if_pos rfl]

theorem toyEncrypt_bytes (p : String) (s iv m : Bytes)
    (hs : ∀ v ∈ s, v < 256) (hiv : ∀ v ∈ iv, v < 256)
    (hm : ∀ v ∈ m, v < 256) :
    ∀ v ∈ toyEncrypt (p, s) iv m, v < 256 := by
  intro v hv
  simp only [toyEncrypt, keyBytes, List.append_assoc, List.cons_append,
    List.mem_append, List.mem_cons, List.mem_replicate,
    List.not_mem_nil, or_false] at hv
  rcases hv with ⟨-, rfl⟩ | rfl | hv | hv | hv | hv | rfl
  · omega
  · omega
  · exact strBytes_bytes p v hv
  · exact hs v hv
  · exact hiv v hv
  · exact hm v hv
  · exact Nat.mod_lt _ (by omega)

theorem replicate_zero_one_inj :
    ∀ (n n' : Nat) (xs xs' : Bytes),
      List.replicate n 0 ++ 1 :: xs = List.replicate n' 0 ++ 1 :: xs' →
      n = n' ∧ xs = xs'
  | 0, 0, xs, xs', h => by simpa using h
  | 0, _ + 1, xs, xs', h => by simp [List.replicate_succ] at h
  | _ + 1, 0, xs, xs', h => by simp [List.replicate_succ] at h
  | n + 1, n' + 1, xs, xs', h => by
      simp only [List.replicate_succ, List.cons_append, List.cons.injEq,
        true_and] at h
      obtain ⟨e1, e2⟩ := replicate_zero_one_inj n n' xs xs' h
      exact ⟨by omega, e2⟩

/-- Toy wrong-key rejection: decrypting with a key derived from a
different passphrase (same salt) fails. -/
theorem toy_auth (p p' : String) (s iv m : Bytes) (hne : p ≠ p') :
    toyDecrypt (p', s) iv (toyEncrypt (p, s) iv m) = none := by
  simp only [toyDecrypt]
  split
  · next heq =>
      exfalso
      simp only [toyEncrypt, keyBytes, List.append_assoc, List.cons_append] at heq
      obtain ⟨hn, htail⟩ := replicate_zero_one_inj _ _ _ _ heq
      obtain ⟨hsb, -⟩ := List.append_inj htail hn
      exact hne (strBytes_inj hsb)
  · rfl

/-- Toy tamper rejection: changing one byte of the ciphertext makes
decryption fail. -/
theorem toy_tamper (p : String) (s iv m pre suf : Bytes) (x y : Nat)
    (hs : ∀ v ∈ s, v < 256) (hiv : ∀ v ∈ iv, v < 256)
    (hm : ∀ v ∈ m, v < 256)
    (hsplit : toyEncrypt (p, s) iv m = pre ++ x :: suf)
    (hxy : y ≠ x) (hy : y < 256) :
    toyDecrypt (p, s) iv (pre ++ y :: suf) = none := by
  have hx : x < 256 :=
    toyEncrypt_bytes p s iv m hs hiv hm x (by rw [hsplit]; simp)
  simp only [toyDecrypt]
  split
  · next heq =>
      exfalso
      rw [toyEncrypt_unfold] at heq hsplit
      rcases suf.eq_nil_or_concat with rfl | ⟨suf0, z, hsuf⟩
      · -- the altered byte is the checksum byte
        obtain ⟨hb1, ht1⟩ := List.append_inj' hsplit (by simp)
        obtain ⟨hb2, ht2⟩ := List.append_inj' heq (by simp)
        simp only [List.cons.injEq, and_true] at ht1 ht2
        rw [hb1.trans hb2] at ht1
        omega
      · -- the altered byte is inside the checksummed body
        rw [List.concat_eq_append] at hsuf
        subst hsuf
        rw [show pre ++ x :: (suf0 ++ [z]) = (pre ++ x :: suf0) ++ [z] from
          by simp] at hsplit
        rw [show pre ++ y :: (suf0 ++ [z]) = (pre ++ y :: suf0) ++ [z] from
          by simp] at heq
        obtain ⟨hb1, ht1⟩ := List.append_inj' hsplit (by simp)
        obtain ⟨hb2, ht2⟩ := List.append_inj' heq (by simp)
        simp only [List.cons.injEq, and_true] at ht1 ht2
        rw [← hb2] at ht2
        rw [hb1] at ht1
        simp only [List.sum_append, List.sum_cons] at ht1 ht2
        omega
  · rfl

/-! ## Claims C1, C2, C8 -/

/-- C1: for every document `d` and passphrase `p`, decrypting the blob
produced by `encryptJSON` with the same passphrase returns the original
document.  The Web-platform guarantees (AES-GCM roundtrip, UTF-8 and JSON
codec roundtrips, byte-valued ciphertext) enter as hypotheses; `salt` and
`iv` stand for the two fresh 16- and 12-byte `getRandomValues` draws. -/
theorem c1_encrypt_decrypt_roundtrip (P : Platform α κ)
    (hgcm : ∀ k i m, P.aesGcmDecrypt k i (P.aesGcmEncrypt k i m) = some m)
    (hutf : ∀ s, P.utf8Decode (P.utf8Encode s) = s)
    (hdoc : ∀ x, P.parseDoc (P.stringifyDoc x) = some x)
    (d : α) (p : String) (salt iv : Bytes)
    (hsalt : ∀ v ∈ salt, v < 256) (hiv : ∀ v ∈ iv, v < 256)
    (hsl : salt.length = 16) (hil : iv.length = 12)
    (hctb : ∀ v ∈ P.aesGcmEncrypt (P.deriveKeyFromPassphrase p salt) iv
      (P.utf8Encode (P.stringifyDoc d)), v < 256) :
    decryptJSON P (encryptJSON P d p salt iv) p = .ok d := by
  rw [encryptJSON, encBlob, decryptJSON_mkBlob P p salt iv _ hsalt hiv hctb]
  simp only [hgcm, hutf, hdoc]

/-- Witness for C1 at concrete inputs, on the toy platform. -/
theorem c1_witness :
    decryptJSON toyPlatform
      (encryptJSON toyPlatform "d" "pw"
        [0, 1, 2, 3, 4, 5, 6, 7, 8, 9, 10, 11, 12, 13, 14, 255]
        [20, 21, 22, 23, 24, 25, 26, 27, 28, 29, 30, 31]) "pw" =
      .ok "d" :=
  c1_encrypt_decrypt_roundtrip toyPlatform toy_gcm toyUtf8_roundtrip
    (fun _ => rfl) "d" "pw"
    [0, 1, 2, 3, 4, 5, 6, 7, 8, 9, 10, 11, 12, 13, 14, 255]
    [20, 21, 22, 23, 24, 25, 26, 27, 28, 29, 30, 31]
    (by decide) (by decide) (by decide) (by decide)
    (toyEncrypt_bytes "pw" _ _ _ (by decide) (by decide)
      (strBytes_bytes "d"))

/-- C2: decrypting with a different passphrase fails with the decryption
error, and decrypting a blob whose `cipher` bytes were altered at one
position fails with the decryption error; in neither case is plaintext
returned.  The AES-GCM authentication guarantees (wrong-key rejection,
one-byte-tamper rejection) enter as hypotheses over all inputs, together
with byte-valuedness of ciphertext and encoded plaintext; the altered
blob is the serialization of the original record with cipher bytes
`pre ++ y :: suf` in place of `pre ++ x :: suf`. -/
theorem c2_wrong_key_and_tamper_reject (P : Platform α κ)
    (hauth : ∀ q q' s i m, q ≠ q' →
      P.aesGcmDecrypt (P.deriveKeyFromPassphrase q' s) i
        (P.aesGcmEncrypt (P.deriveKeyFromPassphrase q s) i m) = none)
    (htamper : ∀ q s i m pre x y suf,
      (∀ v ∈ s, v < 256) → (∀ v ∈ i, v < 256) → (∀ v ∈ m, v < 256) →
      P.aesGcmEncrypt (P.deriveKeyFromPassphrase q s) i m = pre ++ x :: suf →
      y ≠ x → y < 256 →
      P.aesGcmDecrypt (P.deriveKeyFromPassphrase q s) i (pre ++ y :: suf) = none)
    (d : α) (p1 p2 : String) (salt iv : Bytes)
    (hsalt : ∀ v ∈ salt, v < 256) (hiv : ∀ v ∈ iv, v < 256)
    (hptb : ∀ v ∈ P.utf8Encode (P.stringifyDoc d), v < 256)
    (hctb : ∀ v ∈ P.aesGcmEncrypt (P.deriveKeyFromPassphrase p1 salt) iv
      (P.utf8Encode (P.stringifyDoc d)), v < 256)
    (hne : p1 ≠ p2) (pre suf : Bytes) (x y : Nat)
    (hsplit : P.aesGcmEncrypt (P.deriveKeyFromPassphrase p1 salt) iv
      (P.utf8Encode (P.stringifyDoc d)) = pre ++ x :: suf)
    (hxy : y ≠ x) (hy : y < 256) :
    decryptJSON P (encryptJSON P d p1 salt iv) p2 =
        .error .decryptionFailed ∧
    decryptJSON P (blobToString ⟨⟨arrayBufferToBase64 salt⟩,
        ⟨arrayBufferToBase64 iv⟩, ⟨arrayBufferToBase64 (pre ++ y :: suf)⟩⟩)
        p1 = .error .decryptionFailed := by
  have htb : ∀ v ∈ pre ++ y :: suf, v < 256 := by
    intro v hv
    rcases List.mem_append.mp hv with h | h
    · exact hctb v (by rw [hsplit]; exact List.mem_append_left _ h)
    · rcases List.mem_cons.mp h with rfl | h
      · exact hy
      · exact hctb v
          (by rw [hsplit]
              exact List.mem_append_right _ (List.mem_cons_of_mem _ h))
  constructor
  · rw [encryptJSON, encBlob, decryptJSON_mkBlob P p2 salt iv _ hsalt hiv hctb,
      hauth p1 p2 salt iv _ hne]
  · rw [decryptJSON_mkBlob P p1 salt iv _ hsalt hiv htb,
      htamper p1 salt iv _ pre x y suf hsalt hiv hptb hsplit hxy hy]

/-- Witness for C2 at concrete inputs, on the toy platform. -/
theorem c2_witness :
    decryptJSON toyPlatform (encryptJSON toyPlatform "d" "p" [3] [5]) "q" =
        .error .decryptionFailed ∧
    decryptJSON toyPlatform (blobToString ⟨⟨arrayBufferToBase64 [3]⟩,
        ⟨arrayBufferToBase64 [5]⟩,
        ⟨arrayBufferToBase64 [9, 0, 0, 1, 112, 0, 0, 3, 5, 100, 0, 0, 221]⟩⟩)
        "p" = .error .decryptionFailed :=
  c2_wrong_key_and_tamper_reject toyPlatform
    (fun q q' s i m h => toy_auth q q' s i m h)
    (fun q s i m pre x y suf h1 h2 h3 h4 h5 h6 =>
      toy_tamper q s i m pre suf x y h1 h2 h3 h4 h5 h6)
    "d" "p" "q" [3] [5] (by decide) (by decide)
    (strBytes_bytes "d")
    (toyEncrypt_bytes "p" [3] [5] (strBytes "d") (by decide) (by decide)
      (strBytes_bytes "d"))
    (by decide) [] [0, 0, 1, 112, 0, 0, 3, 5, 100, 0, 0, 221] 0 9
    (by decide) (by decide) (by decide)

/-- C8: two encryptions of the same document and passphrase with distinct
random draws produce blobs whose `salt` fields differ and whose `iv`
fields differ (base64 is injective on bytes). -/
theorem c8_fresh_salt_iv_distinct (P : Platform α κ) (d : α) (p : String)
    (salt1 iv1 salt2 iv2 : Bytes)
    (hs1 : ∀ v ∈ salt1, v < 256) (hi1 : ∀ v ∈ iv1, v < 256)
    (hs2 : ∀ v ∈ salt2, v < 256) (hi2 : ∀ v ∈ iv2, v < 256)
    (hsne : salt1 ≠ salt2) (hine : iv1 ≠ iv2) :
    (encBlob P d p salt1 iv1).salt ≠ (encBlob P d p salt2 iv2).salt ∧
    (encBlob P d p salt1 iv1).iv ≠ (encBlob P d p salt2 iv2).iv := by
  constructor
  · intro h
    apply hsne
    apply arrayBufferToBase64_inj hs1 hs2
    simpa [encBlob] using congrArg String.data h
  · intro h
    apply hine
    apply arrayBufferToBase64_inj hi1 hi2
    simpa [encBlob] using congrArg String.data h

/-- Witness for C8 at concrete inputs, on the toy platform. -/
theorem c8_witness :
    (encBlob toyPlatform "x" "p" [0] [2]).salt ≠
      (encBlob toyPlatform "x" "p" [1] [3]).salt ∧
    (encBlob toyPlatform "x" "p" [0] [2]).iv ≠
      (encBlob toyPlatform "x" "p" [1] [3]).iv :=
  c8_fresh_salt_iv_distinct toyPlatform "x" "p" [0] [2] [1] [3]
    (by decide) (by decide) (by decide) (by decide) (by decide) (by decide)

/-! ## Storage layer (`loadDB` / `saveDB` over IndexedDB and localStorage)

Both browser storage backends are external; they are modelled as one
`Store` of two optional slots under the fixed key `"ttb:encrypted-db"`,
with the outcomes of the asynchronous backend calls injected as explicit
flags.  A failed backend write leaves its slot unchanged. -/

/-- The two persisted slots: IndexedDB `kv` store (primary) and
`localStorage` (legacy / fallback).  `none` is an empty slot. -/
structure Store where
  idb : Option String
  ls : Option String
deriving DecidableEq, Repr

/-- Outcomes of the backend calls made by `loadDB`: whether `idbGet`
succeeds, whether the best-effort migration `idbPut` succeeds, and
whether `localStorage.removeItem` succeeds. -/
structure LoadEnv where
  idbGetOk : Bool
  idbPutOk : Bool
  lsRemoveOk : Bool
deriving DecidableEq, Repr

/-- `loadDB(passphrase)`: try IndexedDB first (a present, non-empty blob
is decrypted and returned — the `if (blob)` truthiness test); on an
`idbGet` exception fall through; otherwise read localStorage; if that is
also empty (`if (!ls)`) return the empty database; a legacy blob is
best-effort migrated into IndexedDB (and on success removed from
localStorage, ignoring removal errors) and then decrypted.  Returns the
result together with the store state after the call. -/
def loadDB (P : Platform AppDB κ) (passphrase : String) (st : Store)
    (env : LoadEnv) : Except DecErr AppDB × Store :=
  let viaIdb : Option String :=
    if env.idbGetOk then
      match st.idb with
      | some blob => if blob = "" then none else some blob
      | none => none
    else none
  match viaIdb with
  | some blob => (decryptJSON P blob passphrase, st)
  | none =>
    match st.ls with
    | none => (.ok ⟨[], []⟩, st)
    | some ls =>
      if ls = "" then (.ok ⟨[], []⟩, st)
      else
        let st' :=
          if env.idbPutOk then
            { idb := some ls, ls := if env.lsRemoveOk then none else st.ls }
          else st
        (decryptJSON P ls passphrase, st')

/-- `handleUnlock()`: runs `loadDB`; on success the session is unlocked
with the loaded database, on any error it alerts and stays locked with
the initial empty in-memory state. -/
def handleUnlock (P : Platform AppDB κ) (passphrase : String) (st : Store)
    (env : LoadEnv) : Bool × AppDB × Store :=
  match loadDB P passphrase st env with
  | (.ok dbv, st') => (true, dbv, st')
  | (.error _, st') => (false, ⟨[], []⟩, st')

/-- Outcome of the `localStorage.setItem` fallback write in `saveDB`:
success, a quota-type failure (`QuotaExceededError` / `code 22` / the
legacy IE error number), or any other exception (rethrown verbatim,
carrying its message). -/
inductive LsPutOutcome
  | ok
  | quotaFail
  | otherFail (msg : String)
deriving DecidableEq, Repr

/-- The actionable error message `saveDB` raises on a quota failure. -/
def quotaMsg : String :=
  "Storage quota exceeded: cannot save data. Try removing large photos, clear storage, or use a device with more available storage."

/-- `saveDB(dbObj, passphrase)`: encrypt, prefer the IndexedDB write, on
its failure fall back to `localStorage.setItem`, and on a quota failure
there raise the descriptive `quotaMsg` (other exceptions are rethrown). -/
def saveDB (P : Platform AppDB κ) (dbObj : AppDB) (passphrase : String)
    (salt iv : Bytes) (st : Store) (idbPutOk : Bool) (lsPut : LsPutOutcome) :
    Except String Unit × Store :=
  let encStr := encryptJSON P dbObj passphrase salt iv
  if idbPutOk then (.ok (), { st with idb := some encStr })
  else
    match lsPut with
    | .ok => (.ok (), { st with ls := some encStr })
    | .quotaFail => (.error quotaMsg, st)
    | .otherFail msg => (.error msg, st)

/-- A platform instance for the document type `AppDB`, used to evaluate
the storage layer at concrete inputs. -/
def unitPlatform : Platform AppDB Unit where
  stringifyDoc := fun _ => ""
  parseDoc := fun _ => none
  utf8Encode := fun _ => []
  utf8Decode := fun _ => ""
  deriveKeyFromPassphrase := fun _ _ => ()
  aesGcmEncrypt := fun _ _ m => m
  aesGcmDecrypt := fun _ _ c => some c

/-- Substring test (used to state that an error message names its causes
and remedies). -/
def hasSub (hay pat : List Char) : Bool :=
  (List.range (hay.length + 1)).any fun i => (hay.drop i).take pat.length = pat

/-! ## Claims C4, C5, C6, C10 -/

/-- C4 counterexample: unlocking with passphrase `"abc123"` on an empty
store returns the empty database but persists nothing — the store
afterwards still has both slots empty (`⟨none, none⟩`), refuting the
claimed "immediately persists that empty database".  (Persistence of a
fresh empty database happens only in the separate Create-button flow,
which calls `saveDB` directly.) -/
theorem c4_counterexample :
    loadDB unitPlatform "abc123" ⟨none, none⟩ ⟨true, true, true⟩ =
      (.ok ⟨[], []⟩, ⟨none, none⟩) ∧
    handleUnlock unitPlatform "abc123" ⟨none, none⟩ ⟨true, true, true⟩ =
      (true, ⟨[], []⟩, ⟨none, none⟩) := by
  constructor <;> rfl

/-- C4 (amended): when `unlock(passphrase)` finds no blob in either the
primary slot or the legacy slot, it returns the empty application
database and leaves the store unchanged — no write occurs. -/
theorem c4_amended (P : Platform AppDB κ) (passphrase : String)
    (env : LoadEnv) :
    loadDB P passphrase ⟨none, none⟩ env = (.ok ⟨[], []⟩, ⟨none, none⟩) ∧
    handleUnlock P passphrase ⟨none, none⟩ env =
      (true, ⟨[], []⟩, ⟨none, none⟩) := by
  rcases env with ⟨g, pok, rok⟩
  cases g <;> exact ⟨rfl, rfl⟩

/-- C5: with a populated legacy slot and an empty primary slot, `loadDB`
returns the data decoded from the legacy blob whatever the outcome of the
best-effort migration (its failure does not block unlocking), and when the
migration writes succeed, the primary slot afterwards holds that same
blob while the legacy slot is empty. -/
theorem c5_legacy_migration (P : Platform AppDB κ) (pass lsBlob : String)
    (hne : lsBlob ≠ "") (env : LoadEnv) :
    (loadDB P pass ⟨none, some lsBlob⟩ env).1 = decryptJSON P lsBlob pass ∧
    (env.idbPutOk = true → env.lsRemoveOk = true →
      (loadDB P pass ⟨none, some lsBlob⟩ env).2 = ⟨some lsBlob, none⟩) := by
  rcases env with ⟨g, pok, rok⟩
  cases g <;> cases pok <;> cases rok <;>
    simp [loadDB, hne]

/-- Witness for C5 at concrete inputs. -/
theorem c5_witness :
    (loadDB unitPlatform "p" ⟨none, some "x"⟩ ⟨true, true, true⟩).1 =
      decryptJSON unitPlatform "x" "p" ∧
    ((⟨true, true, true⟩ : LoadEnv).idbPutOk = true →
      (⟨true, true, true⟩ : LoadEnv).lsRemoveOk = true →
      (loadDB unitPlatform "p" ⟨none, some "x"⟩ ⟨true, true, true⟩).2 =
        ⟨some "x", none⟩) :=
  c5_legacy_migration unitPlatform "p" "x" (by decide) ⟨true, true, true⟩

set_option maxRecDepth 8192 in
/-- C6: a save whose IndexedDB write and localStorage fallback both fail
reports the failure to the caller and leaves the prior store state
intact; the quota-type failure surfaces the descriptive `quotaMsg`, whose
text names the likely cause (removing large photos) and remedies (clear
storage / use a device with more storage) rather than silently dropping
data. -/
theorem c6_failed_save_reports_and_preserves (P : Platform AppDB κ)
    (dbObj : AppDB) (pass : String) (salt iv : Bytes) (st : Store) :
    (∀ msg, saveDB P dbObj pass salt iv st false (.otherFail msg) =
      (.error msg, st)) ∧
    saveDB P dbObj pass salt iv st false .quotaFail = (.error quotaMsg, st) ∧
    hasSub quotaMsg.data "removing large photos".data = true ∧
    hasSub quotaMsg.data "clear storage".data = true ∧
    hasSub quotaMsg.data "more available storage".data = true := by
  refine ⟨fun msg => rfl, rfl, ?_, ?_, ?_⟩ <;> decide

/-- C10: when the primary slot holds a (non-empty) blob and the IndexedDB
read succeeds, `loadDB` decrypts exactly that blob and does not touch the
store — whatever the legacy slot contains; consequently, after a `saveDB`
whose IndexedDB write failed but whose localStorage fallback succeeded,
a subsequent `loadDB` returns the older IndexedDB contents rather than
the blob that was just saved. -/
theorem c10_idb_shadows_fallback (P : Platform AppDB κ) (pass : String)
    (oldBlob : String) (hne : oldBlob ≠ "") (lsv : Option String)
    (env : LoadEnv) (hg : env.idbGetOk = true)
    (dbObj : AppDB) (salt iv : Bytes) :
    loadDB P pass ⟨some oldBlob, lsv⟩ env =
      (decryptJSON P oldBlob pass, ⟨some oldBlob, lsv⟩) ∧
    saveDB P dbObj pass salt iv ⟨some oldBlob, lsv⟩ false .ok =
      (.ok (), ⟨some oldBlob, some (encryptJSON P dbObj pass salt iv)⟩) ∧
    loadDB P pass
        ⟨some oldBlob, some (encryptJSON P dbObj pass salt iv)⟩ env =
      (decryptJSON P oldBlob pass,
        ⟨some oldBlob, some (encryptJSON P dbObj pass salt iv)⟩) := by
  rcases env with ⟨g, pok, rok⟩
  cases hg
  refine ⟨?_, rfl, ?_⟩ <;> simp [loadDB, hne]

/-- Witness for C10 at concrete inputs. -/
theorem c10_witness :
    loadDB unitPlatform "p" ⟨some "old", none⟩ ⟨true, true, true⟩ =
      (decryptJSON unitPlatform "old" "p", ⟨some "old", none⟩) ∧
    saveDB unitPlatform ⟨[], []⟩ "p" [] [] ⟨some "old", none⟩ false .ok =
      (.ok (), ⟨some "old",
        some (encryptJSON unitPlatform ⟨[], []⟩ "p" [] [])⟩) ∧
    loadDB unitPlatform "p"
        ⟨some "old", some (encryptJSON unitPlatform ⟨[], []⟩ "p" [] [])⟩
        ⟨true, true, true⟩ =
      (decryptJSON unitPlatform "old" "p",
        ⟨some "old", some (encryptJSON unitPlatform ⟨[], []⟩ "p" [] [])⟩) :=
  c10_idb_shadows_fallback unitPlatform "p" "old" (by decide) none
    ⟨true, true, true⟩ rfl ⟨[], []⟩ [] []

/-! ## Student identifier generation (`generateStudentId`)

The identifier scheme: a fixed textual stem `TATATB-<yy><yy+1><classCode>`
(the local variable is a reserved word here, so it is called `stem`),
followed by a 4-digit zero-padded sequence number computed as one greater
than the maximum sequence among existing identifiers sharing the stem. -/

/-- The decimal digit character. -/
def digitChar (n : Nat) : Char := Char.ofNat (48 + n)

/-- Decimal digit characters of `n` (`String(n)`), by fuel recursion. -/
def natCharsAux : Nat → Nat → List Char
  | 0, _ => []
  | fuel + 1, n =>
      if n < 10 then [digitChar n]
      else natCharsAux fuel (n / 10) ++ [digitChar (n % 10)]

def natChars (n : Nat) : List Char := natCharsAux (n + 1) n

/-- `String(x).slice(-2)`. -/
def lastTwo (l : List Char) : List Char := l.drop (l.length - 2)

/-- `padStart(4, '0')`. -/
def padStart4 (l : List Char) : List Char :=
  List.replicate (4 - l.length) '0' ++ l

/-- The `classMap` lookup with default `'00'`. -/
def classCode (classSection : String) : String :=
  if classSection = "Pravesham" then "01"
  else if classSection = "Pravalam" then "02"
  else if classSection = "Pradhanam" then "03"
  else if classSection = "Pravardham" then "04"
  else if classSection = "Praaveenyam" then "05"
  else "00"

/-- The identifier stem `TATATB-<yearPart><classCode>`. -/
def idStem (classSection : String) (year : Nat) : String :=
  ⟨"TATATB-".data ++ lastTwo (natChars year) ++ lastTwo (natChars (year + 1))
    ++ (classCode classSection).data⟩

/-- The per-student regex test of the scan loop (stem followed by exactly
four decimal digits, anchored at both ends), with
the captured sequence value (`parseInt(m[1], 10)`). -/
def matchSeq (stem : String) (id : String) : Option Nat :=
  if id.data.take stem.data.length = stem.data then
    let r := id.data.drop stem.data.length
    if r.length = 4 ∧ r.all Char.isDigit then
      some (r.foldl (fun a c => 10 * a + (c.toNat - 48)) 0)
    else none
  else none

/-- The scan over existing students for the maximum matching sequence. -/
def maxSeq (stem : String) (students : List Student) : Nat :=
  students.foldl (fun acc s =>
    match matchSeq stem s.id with
    | some q => max acc q
    | none => acc) 0

/-- `generateStudentId(classSection, enrollmentYear, existingStudents)`. -/
def generateStudentId (classSection : String) (year : Nat)
    (existingStudents : List Student) : String :=
  ⟨(idStem classSection year).data ++
    padStart4 (natChars (maxSeq (idStem classSection year) existingStudents + 1))⟩

/-! ## Database mutation handlers -/

/-- The log entry `handleCheckIn` constructs (the `uid("L")` draw and the
`nowISO()` timestamp are passed explicitly). -/
def checkinLog (logId ts : String) (student : Student) : LogEntry :=
  { id := logId, studentId := student.id, studentName := student.name,
    classSection := student.classSection, type := "checkin",
    timestamp := ts, collectedBy := none }

/-- `handleCheckIn(student)`: prepends one checkin entry. -/
def handleCheckIn (db : AppDB) (logId ts : String) (student : Student) :
    AppDB :=
  { db with logs := checkinLog logId ts student :: db.logs }

/-- The collector-name resolution of `handleCheckOut`
(`guardianName || guardianKey`: a missing or empty name falls back to the
key). -/
def collectorName (student : Student) (guardianKey : String) : String :=
  let nm :=
    if guardianKey = "father" then student.fatherName
    else if guardianKey = "mother" then student.motherName
    else if guardianKey = "guardian1" then student.guardian1Name
    else student.guardian2Name
  match nm with
  | some n => if n = "" then guardianKey else n
  | none => guardianKey

/-- The log entry `handleCheckOut` constructs. -/
def checkoutLog (logId ts : String) (student : Student)
    (guardianKey : String) : LogEntry :=
  { id := logId, studentId := student.id, studentName := student.name,
    classSection := student.classSection, type := "checkout",
    timestamp := ts, collectedBy := some (collectorName student guardianKey) }

/-- `handleCheckOut(student, guardianKey)`: with an empty key it only
alerts (no database change); otherwise prepends one checkout entry. -/
def handleCheckOut (db : AppDB) (logId ts : String) (student : Student)
    (guardianKey : String) : AppDB :=
  if guardianKey = "" then db
  else { db with logs := checkoutLog logId ts student guardianKey :: db.logs }

/-- `handleAddStudent`: builds the new student from the form with the
generated identifier (`form.classSection || 'Pravesham'`) and prepends it;
the `logs` field is carried over unchanged. -/
def handleAddStudent (db : AppDB) (form : Student) (year : Nat) : AppDB :=
  let newId := generateStudentId
    (if form.classSection = "" then "Pravesham" else form.classSection)
    year db.students
  { db with students := { form with id := newId } :: db.students }

/-- `handleDeleteStudent(id)` (after its confirm dialog): removes the
student with that identifier. -/
def handleDeleteStudent (db : AppDB) (id : String) : AppDB :=
  { db with students := db.students.filter (fun s => s.id != id) }

/-- `handleClearAllEnrollments` (after its confirm dialog): removes every
student record, keeping the logs. -/
def handleClearAllEnrollments (db : AppDB) : AppDB :=
  { db with students := [] }

/-- Fold of `handleAddStudent` over a list of enrollment forms, returning
the generated identifiers in enrollment order and the final database. -/
def enrollAll (db : AppDB) (forms : List Student) (year : Nat) :
    List String × AppDB :=
  match forms with
  | [] => ([], db)
  | f :: fs =>
    let newId := generateStudentId
      (if f.classSection = "" then "Pravesham" else f.classSection)
      year db.students
    let rest := enrollAll (handleAddStudent db f year) fs year
    (newId :: rest.1, rest.2)

/-! ## Decimal representation lemmas for the identifier scheme -/

/-- The value read back by the fold in `matchSeq`. -/
def digitsVal (l : List Char) : Nat :=
  l.foldl (fun a c => 10 * a + (c.toNat - 48)) 0

theorem digitChar_toNat : ∀ n < 10, (digitChar n).toNat = 48 + n := by decide

theorem digitChar_isDigit : ∀ n < 10, (digitChar n).isDigit = true := by decide

theorem digitsVal_append (l : List Char) (c : Char) :
    digitsVal (l ++ [c]) = 10 * digitsVal l + (c.toNat - 48) := by
  simp [digitsVal, List.foldl_append]

theorem natCharsAux_val :
    ∀ fuel n, n < fuel → digitsVal (natCharsAux fuel n) = n := by
  intro fuel
  induction fuel with
  | zero => intro n h; omega
  | succ f ih =>
      intro n h
      by_cases hn : n < 10
      · have ht := digitChar_toNat n hn
        simp [natCharsAux, hn, digitsVal]
        omega
      · have h10 : n / 10 < f := by omega
        simp only [natCharsAux, if_neg hn]
        rw [digitsVal_append, ih _ h10, digitChar_toNat (n % 10) (by omega)]
        omega

theorem natCharsAux_len :
    ∀ fuel n b, n < fuel → n < 10 ^ b → 1 ≤ b →
      (natCharsAux fuel n).length ≤ b := by
  intro fuel
  induction fuel with
  | zero => intro n b h _ _; omega
  | succ f ih =>
      intro n b h hb hb1
      by_cases hn : n < 10
      · simp [natCharsAux, hn]; omega
      · have hbge : 2 ≤ b := by
          by_contra hlt
          have : b = 1 := by omega
          subst this
          simp at hb
          omega
        have h10 : n / 10 < f := by omega
        have hdiv : n / 10 < 10 ^ (b - 1) := by
          have hpow : 10 ^ b = 10 ^ (b - 1) * 10 := by
            rw [← pow_succ]
            congr 1
            omega
          exact (Nat.div_lt_iff_lt_mul (by omega)).mpr (by omega)
        have := ih (n / 10) (b - 1) h10 hdiv (by omega)
        simp only [natCharsAux, if_neg hn, List.length_append, List.length_cons,
          List.length_nil]
        omega

theorem natCharsAux_digits :
    ∀ fuel n, n < fuel → ∀ c ∈ natCharsAux fuel n, c.isDigit = true := by
  intro fuel
  induction fuel with
  | zero => intro n h; omega
  | succ f ih =>
      intro n h c hc
      by_cases hn : n < 10
      · simp [natCharsAux, hn] at hc
        subst hc
        exact digitChar_isDigit n hn
      · have h10 : n / 10 < f := by omega
        simp only [natCharsAux, if_neg hn, List.mem_append,
          List.mem_singleton] at hc
        rcases hc with hc | hc
        · exact ih _ h10 c hc
        · subst hc; exact digitChar_isDigit _ (by omega)

theorem padStart4_length (l : List Char) (h : l.length ≤ 4) :
    (padStart4 l).length = 4 := by
  simp only [padStart4, List.length_append, List.length_replicate]
  omega

theorem padStart4_digits (l : List Char) (h : ∀ c ∈ l, c.isDigit = true) :
    ∀ c ∈ padStart4 l, c.isDigit = true := by
  intro c hc
  simp only [padStart4, List.mem_append, List.mem_replicate] at hc
  rcases hc with ⟨-, rfl⟩ | hc
  · decide
  · exact h c hc

theorem digitsVal_replicate_zero (k : Nat) (l : List Char) :
    digitsVal (List.replicate k '0' ++ l) = digitsVal l := by
  induction k with
  | zero => rfl
  | succ k ih =>
      simp only [List.replicate_succ, List.cons_append]
      show List.foldl _ (10 * 0 + ('0'.toNat - 48)) _ = _
      have : 10 * 0 + ('0'.toNat - 48) = 0 := by decide
      rw [this]
      exact ih

theorem digitsVal_padStart4 (l : List Char) :
    digitsVal (padStart4 l) = digitsVal l :=
  digitsVal_replicate_zero _ l

theorem digitsVal_pad_natChars (j : Nat) :
    digitsVal (padStart4 (natChars j)) = j := by
  rw [digitsVal_padStart4, natChars, natCharsAux_val _ _ (by omega)]

/-- The scan regex accepts exactly `stem ++ padStart4(natChars j)` with
captured value `j`, for `1 ≤ j ≤ 9999`. -/
theorem matchSeq_stem_pad (stem : String) (j : Nat) (h1 : 1 ≤ j)
    (h2 : j ≤ 9999) :
    matchSeq stem ⟨stem.data ++ padStart4 (natChars j)⟩ = some j := by
  have hlen : (natChars j).length ≤ 4 :=
    natCharsAux_len _ _ 4 (by omega) (by omega) (by omega)
  have hpl : (padStart4 (natChars j)).length = 4 := padStart4_length _ hlen
  have hdig : ∀ c ∈ padStart4 (natChars j), c.isDigit = true :=
    padStart4_digits _ (natCharsAux_digits _ _ (by omega))
  have hcond : (padStart4 (natChars j)).length = 4 ∧
      (padStart4 (natChars j)).all Char.isDigit = true :=
    ⟨hpl, List.all_eq_true.mpr hdig⟩
  rw [matchSeq]
  simp only [List.take_left, List.drop_left, if_true]
  rw [if_pos hcond]
  exact congrArg some (digitsVal_pad_natChars j)

/-- The max-scan fold with an arbitrary accumulator. -/
theorem maxSeq_foldl_max (stem : String) :
    ∀ (l : List Student) (a : Nat),
      l.foldl (fun acc s =>
        match matchSeq stem s.id with
        | some q => max acc q
        | none => acc) a = max a (maxSeq stem l) := by
  intro l
  induction l with
  | nil => intro a; simp [maxSeq]
  | cons s t ih =>
      intro a
      simp only [maxSeq, List.foldl_cons] at ih ⊢
      rcases hm : matchSeq stem s.id with _ | q
      · simp only [hm]
        rw [ih, ih 0]
      · simp only [hm]
        rw [ih, ih (max 0 q)]
        simp [Nat.zero_max, Nat.max_assoc]

theorem maxSeq_no_matches (stem : String) (l : List Student)
    (h : ∀ s ∈ l, matchSeq stem s.id = none) : maxSeq stem l = 0 := by
  induction l with
  | nil => rfl
  | cons s t ih =>
      have hs := h s (by simp)
      simp only [maxSeq, List.foldl_cons, hs]
      exact ih fun x hx => h x (by simp [hx])

/-- Enrollment induction: starting from a database whose matching maximum
is `k`, enrolling the forms in sequence yields the identifiers
`stem ++ pad4 (k+1), …, stem ++ pad4 (k+N)` in order. -/
theorem enrollAll_ids (cls : String) (year : Nat) :
    ∀ (forms : List Student) (db : AppDB) (k : Nat),
      (∀ f ∈ forms, f.classSection = cls) →
      maxSeq (idStem (if cls = "" then "Pravesham" else cls) year)
        db.students = k →
      k + forms.length ≤ 9999 →
      (enrollAll db forms year).1 =
        (List.range forms.length).map
          (fun i =>
            ⟨(idStem (if cls = "" then "Pravesham" else cls) year).data ++
              padStart4 (natChars (k + i + 1))⟩) := by
  intro forms
  induction forms with
  | nil => intro db k _ _ _; rfl
  | cons f fs ih =>
      intro db k hcls hmax hbound
      have hf : (if f.classSection = "" then "Pravesham" else f.classSection)
          = (if cls = "" then "Pravesham" else cls) := by
        rw [hcls f (by simp)]
      simp only [enrollAll, generateStudentId, handleAddStudent, hf, hmax]
      have hmax' : maxSeq (idStem (if cls = "" then "Pravesham" else cls) year)
          ({ f with id := ⟨(idStem (if cls = "" then "Pravesham" else cls)
              year).data ++ padStart4 (natChars (k + 1))⟩ } ::
            db.students) = k + 1 := by
        simp only [maxSeq, List.foldl_cons]
        rw [matchSeq_stem_pad _ (k + 1) (by omega)
          (by simp only [List.length_cons] at hbound; omega)]
        rw [maxSeq_foldl_max]
        have hk : maxSeq (idStem (if cls = "" then "Pravesham" else cls) year)
            db.students = k := hmax
        rw [hk]
        simp
      simp only [List.length_cons]
      rw [List.range_succ_eq_map, List.map_cons, List.map_map]
      congr 1
      rw [ih ⟨{ f with id := ⟨(idStem (if cls = "" then "Pravesham" else cls)
            year).data ++ padStart4 (natChars (k + 1))⟩ } :: db.students,
          db.logs⟩
        (k + 1) (fun x hx => hcls x (by simp [hx])) hmax'
        (by simp only [List.length_cons] at hbound; omega)]
      apply List.map_congr_left
      intro i hi
      have he : k + 1 + i + 1 = k + (i + 1) + 1 := by omega
      simp [Function.comp, he]

/-- C3: enrolling N students of one class/year in sequence — into a
database none of whose existing identifiers matches the stem — yields the
identifiers `stem ++ "0001"`, …, `stem ++ pad4 N` in enrollment order,
pairwise distinct.  The stem is the fixed text `TATATB-` plus the 2-digit
year pair plus the 2-digit class code, and by definition of
`generateStudentId` each identifier is the stem plus the 4-digit
zero-padded successor of the maximum existing matching sequence. -/
theorem c3_enrollment_ids (cls : String) (year : Nat) (db0 : AppDB)
    (forms : List Student)
    (hcls : ∀ f ∈ forms, f.classSection = cls)
    (hN : forms.length ≤ 9999)
    (hdb0 : ∀ s ∈ db0.students,
      matchSeq (idStem (if cls = "" then "Pravesham" else cls) year) s.id
        = none) :
    (enrollAll db0 forms year).1 =
      (List.range forms.length).map
        (fun i =>
          ⟨(idStem (if cls = "" then "Pravesham" else cls) year).data ++
            padStart4 (natChars (i + 1))⟩) ∧
    (enrollAll db0 forms year).1.Nodup := by
  have h0 := maxSeq_no_matches _ _ hdb0
  have hids := enrollAll_ids cls year forms db0 0 hcls h0 (by omega)
  refine ⟨?_, ?_⟩
  · rw [hids]
    apply List.map_congr_left
    intro i hi
    norm_num
  · rw [hids]
    refine List.Nodup.map_on ?_ (List.nodup_range _)
    intro i hi j hj hstr
    have hd := congrArg String.data hstr
    simp only at hd
    have hp := congrArg
      (List.drop (idStem (if cls = "" then "Pravesham" else cls) year).data.length)
      hd
    simp only [List.drop_left] at hp
    have hv := congrArg digitsVal hp
    rw [digitsVal_pad_natChars, digitsVal_pad_natChars] at hv
    omega

/-- Witness for C3 at concrete inputs: two enrollments into an empty
database in class `"Pravesham"`, year 2025, give `TATATB-2526010001` and
`TATATB-2526010002`. -/
theorem c3_witness :
    (enrollAll ⟨[], []⟩
        [{ id := "", name := "Asha", classSection := "Pravesham" },
         { id := "", name := "Ravi", classSection := "Pravesham" }]
        2025).1 =
      (List.range 2).map
        (fun i =>
          ⟨(idStem (if ("Pravesham" : String) = "" then "Pravesham"
              else "Pravesham") 2025).data ++
            padStart4 (natChars (i + 1))⟩) ∧
    (enrollAll ⟨[], []⟩
        [{ id := "", name := "Asha", classSection := "Pravesham" },
         { id := "", name := "Ravi", classSection := "Pravesham" }]
        2025).1.Nodup :=
  c3_enrollment_ids "Pravesham" 2025 ⟨[], []⟩
    [{ id := "", name := "Asha", classSection := "Pravesham" },
     { id := "", name := "Ravi", classSection := "Pravesham" }]
    (by intro f hf
        rcases List.mem_cons.mp hf with rfl | hf
        · rfl
        · rcases List.mem_cons.mp hf with rfl | hf
          · rfl
          · simp at hf)
    (by decide)
    (by intro s hs; simp at hs)

/-- C9: every database mutation handler preserves the existing log entries
unchanged: check-in prepends exactly one new entry, check-out with a
selected guardian key prepends exactly one new entry, and adding a
student, deleting a student and clearing all enrollments leave `logs`
identical. -/
theorem c9_logs_append_only (db : AppDB) (logId ts : String)
    (student : Student) (guardianKey : String) (hg : guardianKey ≠ "")
    (form : Student) (year : Nat) (sid : String) :
    (handleCheckIn db logId ts student).logs =
      checkinLog logId ts student :: db.logs ∧
    (handleCheckOut db logId ts student guardianKey).logs =
      checkoutLog logId ts student guardianKey :: db.logs ∧
    (handleAddStudent db form year).logs = db.logs ∧
    (handleDeleteStudent db sid).logs = db.logs ∧
    (handleClearAllEnrollments db).logs = db.logs := by
  refine ⟨rfl, ?_, rfl, rfl, rfl⟩
  simp [handleCheckOut, hg]

/-- Witness for C9 at concrete inputs. -/
theorem c9_witness :
    (handleCheckIn
        ⟨[], [{ id := "L0", studentId := "S1", studentName := "Asha",
                classSection := "Pravesham", type := "checkin",
                timestamp := "t0" }]⟩ "L1" "t1"
        { id := "S1", name := "Asha", classSection := "Pravesham" }).logs =
      checkinLog "L1" "t1"
          { id := "S1", name := "Asha", classSection := "Pravesham" } ::
        [{ id := "L0", studentId := "S1", studentName := "Asha",
           classSection := "Pravesham", type := "checkin",
           timestamp := "t0" }] ∧
    (handleCheckOut
        ⟨[], [{ id := "L0", studentId := "S1", studentName := "Asha",
                classSection := "Pravesham", type := "checkin",
                timestamp := "t0" }]⟩ "L1" "t1"
        { id := "S1", name := "Asha", classSection := "Pravesham" }
        "father").logs =
      checkoutLog "L1" "t1"
          { id := "S1", name := "Asha", classSection := "Pravesham" }
          "father" ::
        [{ id := "L0", studentId := "S1", studentName := "Asha",
           classSection := "Pravesham", type := "checkin",
           timestamp := "t0" }] ∧
    (handleAddStudent
        ⟨[], [{ id := "L0", studentId := "S1", studentName := "Asha",
                classSection := "Pravesham", type := "checkin",
                timestamp := "t0" }]⟩
        { id := "S1", name := "Asha", classSection := "Pravesham" }
        2025).logs =
      [{ id := "L0", studentId := "S1", studentName := "Asha",
         classSection := "Pravesham", type := "checkin",
         timestamp := "t0" }] ∧
    (handleDeleteStudent
        ⟨[], [{ id := "L0", studentId := "S1", studentName := "Asha",
                classSection := "Pravesham", type := "checkin",
                timestamp := "t0" }]⟩ "S1").logs =
      [{ id := "L0", studentId := "S1", studentName := "Asha",
         classSection := "Pravesham", type := "checkin",
         timestamp := "t0" }] ∧
    (handleClearAllEnrollments
        ⟨[], [{ id := "L0", studentId := "S1", studentName := "Asha",
                classSection := "Pravesham", type := "checkin",
                timestamp := "t0" }]⟩).logs =
      [{ id := "L0", studentId := "S1", studentName := "Asha",
         classSection := "Pravesham", type := "checkin",
         timestamp := "t0" }] :=
  c9_logs_append_only
    ⟨[], [{ id := "L0", studentId := "S1", studentName := "Asha",
            classSection := "Pravesham", type := "checkin",
            timestamp := "t0" }]⟩ "L1" "t1"
    { id := "S1", name := "Asha", classSection := "Pravesham" }
    "father" (by decide)
    { id := "S1", name := "Asha", classSection := "Pravesham" } 2025 "S1"

/-! ## Cloud sync (`src/cloud-sync.ts`)

The Firebase SDK is external.  The module state and call outcomes are a
`CloudEnv`: whether `tryInitDb` can produce a Firestore client (config
module present with a non-empty `FIREBASE_CONFIG`, app/Firestore
initialization succeeds), whether `getAuth` succeeds, the currently
signed-in identity, and the outcomes of the network calls (`Except.error`
models a rejected call).  Both exported functions wrap their body in
try/catch and return plain values, so no exception escapes; this is
visible in the embedding as their total `Option`/`Bool` return types. -/

structure CloudEnv where
  dbInitOk : Bool
  authInitOk : Bool
  currentUser : Option String
  getDocResult : Except Unit (Option String)
  setDocOk : Except Unit Unit
deriving Repr

/-- `tryInitDb()` (with `getAuth`): the pair of module-level clients
`(dbClient, authClient)` after the call. -/
def tryInitDb (env : CloudEnv) : Option Unit × Option Unit :=
  if env.dbInitOk then (some (), if env.authInitOk then some () else none)
  else (none, none)

/-- `fetchEncryptedBlob()`: `null` without a client, auth client or
signed-in user; `null` when the document is missing or has no `blob`
field; `null` when `getDoc` rejects (caught); otherwise the blob text. -/
def fetchEncryptedBlob (env : CloudEnv) : Option String :=
  match tryInitDb env with
  | (some _, some _) =>
    match env.currentUser with
    | none => none
    | some _ =>
      match env.getDocResult with
      | .error _ => none
      | .ok b => b
  | _ => none

/-- `uploadEncryptedBlob(encryptedJson)`: `false` without a client, auth
client or signed-in user; `false` when `setDoc` rejects (caught); `true`
after a successful write. -/
def uploadEncryptedBlob (env : CloudEnv) (encryptedJson : String) : Bool :=
  match tryInitDb env with
  | (some _, some _) =>
    match env.currentUser with
    | none => false
    | some _ =>
      match env.setDocOk with
      | .error _ => false
      | .ok _ => true
  | _ => false

/-- C7: whenever no remote configuration is present, or no identity is
signed in, or the network calls fail, `fetchEncryptedBlob` returns `none`
and `uploadEncryptedBlob` returns `false` for every payload — and, both
functions being total with `Option`/`Bool` result types, no exception
reaches the caller. -/
theorem c7_remote_absence_transparent (env : CloudEnv)
    (h : env.dbInitOk = false ∨ env.currentUser = none ∨
      (env.getDocResult = .error () ∧ env.setDocOk = .error ())) :
    fetchEncryptedBlob env = none ∧
    ∀ s, uploadEncryptedBlob env s = false := by
  rcases env with ⟨dOk, aOk, user, gRes, sRes⟩
  rcases h with h | h | ⟨h1, h2⟩
  · subst h
    exact ⟨rfl, fun _ => rfl⟩
  · subst h
    cases dOk <;> cases aOk <;> exact ⟨rfl, fun _ => rfl⟩
  · subst h1
    subst h2
    cases dOk <;> cases aOk <;> rcases user with _ | u <;>
      exact ⟨rfl, fun _ => rfl⟩

/-- Witness for C7 at a concrete environment (no configuration present,
even with a signed-in user and a healthy network). -/
theorem c7_witness :
    fetchEncryptedBlob ⟨false, true, some "u", .ok (some "b"), .ok ()⟩ =
      none ∧
    ∀ s, uploadEncryptedBlob
      ⟨false, true, some "u", .ok (some "b"), .ok ()⟩ s = false :=
  c7_remote_absence_transparent _ (Or.inl rfl)

end TeluguBadi
